import Mathlib

/-!
Verification of the task-dependency and progress-tracking core of the
vibe-assistant repository, shallowly embedded from the TypeScript sources.

The embedded pieces are:
* the data model of `src/types.ts` (`Task`, `Phase`, `ParsedPRD`, `ProgressState`);
* the `get_next_task` tool handler of `src/mcp/server.ts` (lines 199-294), the
  dependency resolver;
* the pure conversion tail of `parsePRD` in `src/parsers/prd.ts` (lines 131-193),
  the plan compiler;
* the status-preserving re-parse of `src/cli/commands/update.ts` (`handleReparse`,
  lines 113-135) together with `generateInitialState`;
* the JSON persistence helpers of `src/utils/files.ts` (`writeJson`, `readJson`).

JavaScript objects keyed by task-id strings are modelled as insertion-ordered
association lists, matching the iteration order of `Object.entries` for
non-index string keys.
-/

namespace VibeAssistant

/-- Task status, from `src/types.ts`: `'pending' | 'in_progress' | 'completed'`. -/
inductive Status where
  | pending
  | in_progress
  | completed
deriving DecidableEq, Repr

/-- Value type of the `tasks` map of `ProgressState` in `src/types.ts`:
`{ status; completedAt?; notes? }`. -/
structure TaskRecord where
  status : Status
  completedAt : Option String := none
  notes : Option String := none
deriving DecidableEq, Repr

/-- Entry of the `checkpoints` array of `ProgressState` in `src/types.ts`. -/
structure Checkpoint where
  phase : Nat
  task : String
  summary : String
  createdAt : String
deriving DecidableEq, Repr

/-- The persisted progress state, from `ProgressState` in `src/types.ts`. -/
structure ProgressState where
  currentPhase : Nat
  tasks : List (String × TaskRecord)
  checkpoints : List Checkpoint
  lastUpdated : String
deriving DecidableEq, Repr

/-- Lookup in a JavaScript object modelled as an association list: the
expression `obj[key]`, returning `undefined` (`none`) for a missing key. -/
def jsLookup {α : Type} (obj : List (String × α)) (key : String) : Option α :=
  (obj.find? (fun p => p.1 == key)).map (fun p => p.2)

/-- The `taskDependencies` record built by the `get_next_task` handler from the
phase file (`src/mcp/server.ts` lines 200-213): task id to list of dependency ids. -/
def TaskDeps : Type := List (String × List String)

/-- Dependency list of a task: `taskDependencies[taskId] || []`
(`src/mcp/server.ts` lines 221 and 234). -/
def getDeps (td : TaskDeps) (id : String) : List String :=
  ((List.find? (fun p => p.1 == id) td).map (fun p => p.2)).getD []

/-- The JavaScript test `depState && depState.status === 'completed'` for a single
dependency id (`src/mcp/server.ts` lines 222-225). -/
def depCompleted (st : ProgressState) (depId : String) : Bool :=
  match jsLookup st.tasks depId with
  | some r => r.status == Status.completed
  | none => false

/-- The helper `areDependenciesMet` of the handler (`src/mcp/server.ts` lines 220-226). -/
def areDependenciesMet (td : TaskDeps) (st : ProgressState) (id : String) : Bool :=
  (getDeps td id).all (fun d => depCompleted st d)

/-- The phase-id key text `` "phase" + currentPhase + "-" `` used to scope the task map
to the current phase (`src/mcp/server.ts` line 217). -/
def phaseKeyText (n : Nat) : String :=
  "phase" ++ toString n ++ "-"

/-- JavaScript `String.prototype.startsWith`, modelled on the character lists of
the two strings. -/
def strStartsWith (s pre : String) : Bool :=
  pre.data.isPrefixOf s.data

/-- The entries of `state.tasks` whose ids belong to the current phase
(`src/mcp/server.ts` lines 216-217): `Object.entries(state.tasks).filter(([id]) =>
id.startsWith(...))`, in object insertion order. -/
def currentPhaseTasks (st : ProgressState) : List (String × TaskRecord) :=
  st.tasks.filter (fun p => strStartsWith p.1 (phaseKeyText st.currentPhase))

/-- The loop condition of the task-selection loop (`src/mcp/server.ts` line 230):
`taskState.status === 'pending' && areDependenciesMet(taskId)`. -/
def eligibleB (td : TaskDeps) (st : ProgressState) (p : String × TaskRecord) : Bool :=
  p.2.status == Status.pending && areDependenciesMet td st p.1

/-- Unmet dependencies of a task as computed for the blocked report
(`src/mcp/server.ts` line 277): `deps.filter(d => state.tasks[d]?.status !== 'completed')`. -/
def unmetDependencies (td : TaskDeps) (st : ProgressState) (id : String) : List String :=
  (getDeps td id).filter (fun d => !(depCompleted st d))

/-- Possible outcomes of the `get_next_task` handler, abstracting the four
distinct text responses it produces (`src/mcp/server.ts` lines 229-294). The
textual formatting around the data is elided. -/
inductive NextTaskResult where
  | nextTask (taskId : String)
  | phaseComplete (phase : Nat)
  | blocked (inProgressIds : List String) (blockedTasks : List (String × List String))
  | noPending
deriving DecidableEq, Repr

/-- The decision logic of the `get_next_task` tool handler (`src/mcp/server.ts`
lines 216-294), with the already-parsed phase-file dependency record and the
loaded progress state as inputs:
1. scan the current-phase entries in order for the first pending task whose
   dependencies are all completed and return it;
2. otherwise, if every current-phase entry is completed, report the phase complete;
3. otherwise, if some current-phase task is pending and some is in progress,
   report the in-progress ids and the pending tasks with unmet dependencies;
4. otherwise return the generic no-pending-tasks response. -/
def getNextTask (td : TaskDeps) (st : ProgressState) : NextTaskResult :=
  let cpt := currentPhaseTasks st
  match cpt.find? (eligibleB td st) with
  | some p => NextTaskResult.nextTask p.1
  | none =>
    if cpt.all (fun p => p.2.status == Status.completed) then
      NextTaskResult.phaseComplete st.currentPhase
    else
      let pendingTasks := cpt.filter (fun p => p.2.status == Status.pending)
      let inProgressTasks := cpt.filter (fun p => p.2.status == Status.in_progress)
      if 0 < pendingTasks.length ∧ 0 < inProgressTasks.length then
        NextTaskResult.blocked (inProgressTasks.map (fun p => p.1))
          ((pendingTasks.filter (fun p => !(areDependenciesMet td st p.1))).map
            (fun p => (p.1, unmetDependencies td st p.1)))
      else
        NextTaskResult.noPending

/-! Specification-level predicates for the resolver, written after the words of
the spec (section 4.2): a task is eligible iff its record is `pending` and every
declared dependency id has a record with status `completed`. -/

/-- Eligibility of a task, as the spec words it. -/
def EligibleSpec (td : TaskDeps) (st : ProgressState) (id : String) (r : TaskRecord) : Prop :=
  r.status = Status.pending ∧
    ∀ d ∈ getDeps td id, ∃ rec, jsLookup st.tasks d = some rec ∧ rec.status = Status.completed

/-- The task at `id` with record `r` is the first eligible entry of the current
phase, in declaration order: the current-phase entries split around `(id, r)`
with no eligible entry before it. -/
def FirstEligible (td : TaskDeps) (st : ProgressState) (id : String) (r : TaskRecord) : Prop :=
  ∃ l₁ l₂, currentPhaseTasks st = l₁ ++ (id, r) :: l₂ ∧ EligibleSpec td st id r ∧
    ∀ q ∈ l₁, ¬ EligibleSpec td st q.1 q.2

theorem depCompleted_iff (st : ProgressState) (d : String) :
    depCompleted st d = true ↔
      ∃ rec, jsLookup st.tasks d = some rec ∧ rec.status = Status.completed := by
  unfold depCompleted
  cases h : jsLookup st.tasks d <;> simp [h]

theorem eligibleB_iff (td : TaskDeps) (st : ProgressState) (p : String × TaskRecord) :
    eligibleB td st p = true ↔ EligibleSpec td st p.1 p.2 := by
  unfold eligibleB EligibleSpec areDependenciesMet
  simp [List.all_eq_true, depCompleted_iff]

theorem find?_of_split {α : Type} (p : α → Bool) (l₁ l₂ : List α) (a : α)
    (ha : p a = true) (h : ∀ x ∈ l₁, p x = false) :
    (l₁ ++ a :: l₂).find? p = some a := by
  induction l₁ with
  | nil => simp [List.find?_cons, ha]
  | cons b l₁ ih =>
    have hb : p b = false := h b (List.mem_cons_self b l₁)
    simp only [List.cons_append, List.find?_cons, hb]
    exact ih (fun x hx => h x (List.mem_cons_of_mem b hx))

/-- If every current-phase entry is `completed`, the handler reaches the
all-done check and reports the phase complete. -/
theorem getNextTask_phaseComplete_of_completed (td : TaskDeps) (st : ProgressState)
    (h : ∀ p ∈ currentPhaseTasks st, p.2.status = Status.completed) :
    getNextTask td st = NextTaskResult.phaseComplete st.currentPhase := by
  have hf : (currentPhaseTasks st).find? (eligibleB td st) = none :=
    List.find?_eq_none.mpr (fun x hx => by simp [eligibleB, h x hx])
  have ha : (currentPhaseTasks st).all (fun p => p.2.status == Status.completed) = true :=
    List.all_eq_true.mpr (fun x hx => by simp [h x hx])
  simp [getNextTask, hf, ha]

/-! Concrete resolver scenario of the spec (section 8, resolver correctness):
phase 1 with `phase1-task1` (no dependencies), `phase1-task2` (depends on
`phase1-task1`), `phase1-task3` (depends on `phase1-task2`). -/

/-- Dependency record of the concrete scenario. -/
def scenarioDeps : TaskDeps :=
  [("phase1-task1", []), ("phase1-task2", ["phase1-task1"]), ("phase1-task3", ["phase1-task2"])]

/-- Initial state of the concrete scenario: all three records `pending`, `currentPhase = 1`. -/
def scenarioAllPending : ProgressState :=
  { currentPhase := 1
    tasks := [("phase1-task1", { status := Status.pending }),
              ("phase1-task2", { status := Status.pending }),
              ("phase1-task3", { status := Status.pending })]
    checkpoints := []
    lastUpdated := "t0" }

/-- Scenario state after `phase1-task1` is transitioned to `completed`. -/
def scenarioTask1Completed : ProgressState :=
  { currentPhase := 1
    tasks := [("phase1-task1", { status := Status.completed, completedAt := some "t1" }),
              ("phase1-task2", { status := Status.pending }),
              ("phase1-task3", { status := Status.pending })]
    checkpoints := []
    lastUpdated := "t1" }

/-- Scenario state while `phase1-task1` is merely `in_progress`. -/
def scenarioTask1InProgress : ProgressState :=
  { currentPhase := 1
    tasks := [("phase1-task1", { status := Status.in_progress }),
              ("phase1-task2", { status := Status.pending }),
              ("phase1-task3", { status := Status.pending })]
    checkpoints := []
    lastUpdated := "t1" }

/-- C1: the next-task query returns the first task, in declaration order within
the current phase, whose record is `pending` and all of whose declared
dependency ids have status `completed`; concretely, for the phase-1 scenario
plan with all records `pending` and `currentPhase = 1` the query returns
`phase1-task1`; after `phase1-task1` becomes `completed` it returns
`phase1-task2`; and while `phase1-task1` is only `in_progress` it reports
`phase1-task2` as blocked with unmet dependencies `["phase1-task1"]`. -/
theorem getNextTask_first_eligible_and_scenario :
    (∀ (td : TaskDeps) (st : ProgressState) (id : String) (r : TaskRecord),
        FirstEligible td st id r → getNextTask td st = NextTaskResult.nextTask id)
    ∧ getNextTask scenarioDeps scenarioAllPending = NextTaskResult.nextTask "phase1-task1"
    ∧ getNextTask scenarioDeps scenarioTask1Completed = NextTaskResult.nextTask "phase1-task2"
    ∧ getNextTask scenarioDeps scenarioTask1InProgress =
        NextTaskResult.blocked ["phase1-task1"]
          [("phase1-task2", ["phase1-task1"]), ("phase1-task3", ["phase1-task2"])] := by
  refine ⟨?_, rfl, rfl, rfl⟩
  rintro td st id r ⟨l₁, l₂, hsplit, helig, hfirst⟩
  have hp : eligibleB td st (id, r) = true := (eligibleB_iff td st (id, r)).mpr helig
  have hl : ∀ x ∈ l₁, eligibleB td st x = false := by
    intro x hx
    cases hb : eligibleB td st x with
    | false => rfl
    | true => exact absurd ((eligibleB_iff td st x).mp hb) (hfirst x hx)
  have hfind : (currentPhaseTasks st).find? (eligibleB td st) = some (id, r) := by
    rw [hsplit]
    exact find?_of_split _ l₁ l₂ (id, r) hp hl
  simp [getNextTask, hfind]

/-- Witness for C1: the general first-eligible statement applied to the concrete
all-pending scenario state. -/
theorem getNextTask_first_eligible_witness :
    getNextTask scenarioDeps scenarioAllPending = NextTaskResult.nextTask "phase1-task1" :=
  getNextTask_first_eligible_and_scenario.1 scenarioDeps scenarioAllPending
    "phase1-task1" { status := Status.pending }
    ⟨[], [("phase1-task2", { status := Status.pending }),
          ("phase1-task3", { status := Status.pending })],
      rfl,
      ⟨rfl, fun d hd => absurd hd (List.not_mem_nil d)⟩,
      fun q hq => absurd hq (List.not_mem_nil q)⟩

/-- Concrete state for the phase-completion claim: every phase-1 record is
`completed` while a phase-2 record is still `pending`, `currentPhase = 1`. -/
def phase1DoneState : ProgressState :=
  { currentPhase := 1
    tasks := [("phase1-task1", { status := Status.completed, completedAt := some "t1" }),
              ("phase1-task2", { status := Status.completed, completedAt := some "t2" }),
              ("phase2-task1", { status := Status.pending })]
    checkpoints := []
    lastUpdated := "t2" }

/-- C6: whenever every task record of the current phase has status `completed`,
the next-task query returns the phase-complete verdict, even if tasks of later
phases are still pending (concretely: with every phase-1 record `completed` and
a phase-2 record still `pending`, the query on `currentPhase = 1` reports phase
1 complete). -/
theorem getNextTask_phase_complete :
    (∀ (td : TaskDeps) (st : ProgressState),
        (∀ p ∈ currentPhaseTasks st, p.2.status = Status.completed) →
        getNextTask td st = NextTaskResult.phaseComplete st.currentPhase)
    ∧ getNextTask ([] : TaskDeps) phase1DoneState = NextTaskResult.phaseComplete 1 :=
  ⟨fun td st h => getNextTask_phaseComplete_of_completed td st h, rfl⟩

/-- Witness for C6: the general statement applied to the concrete state whose
phase-1 records are all completed while phase 2 is pending. -/
theorem getNextTask_phase_complete_witness :
    getNextTask ([] : TaskDeps) phase1DoneState = NextTaskResult.phaseComplete 1 :=
  getNextTask_phase_complete.1 ([] : TaskDeps) phase1DoneState (by decide)

/-- Concrete state for the empty-current-phase claim: `currentPhase = 5` while
the task map only holds phase-1 ids. -/
def emptyPhaseState : ProgressState :=
  { currentPhase := 5
    tasks := [("phase1-task1", { status := Status.pending })]
    checkpoints := []
    lastUpdated := "t0" }

/-- C10: when no task id of the state belongs to the current phase (no key has
the `phase{currentPhase}-` prefix text), the current-phase task list is empty,
the all-completed check holds vacuously, and the query reports the phase
complete (concretely: `currentPhase = 5` over a map holding only phase-1 ids). -/
theorem getNextTask_vacuous_phase_complete :
    (∀ (td : TaskDeps) (st : ProgressState),
        (∀ p ∈ st.tasks, strStartsWith p.1 (phaseKeyText st.currentPhase) = false) →
        getNextTask td st = NextTaskResult.phaseComplete st.currentPhase)
    ∧ getNextTask ([] : TaskDeps) emptyPhaseState = NextTaskResult.phaseComplete 5 := by
  refine ⟨?_, rfl⟩
  intro td st h
  have hnil : currentPhaseTasks st = [] :=
    List.filter_eq_nil_iff.mpr (fun p hp => by simp [h p hp])
  exact getNextTask_phaseComplete_of_completed td st
    (fun p hp => absurd (hnil ▸ hp) (List.not_mem_nil p))

/-- Witness for C10: the general statement applied to the concrete state with
`currentPhase = 5` and only phase-1 task ids. -/
theorem getNextTask_vacuous_phase_complete_witness :
    getNextTask ([] : TaskDeps) emptyPhaseState = NextTaskResult.phaseComplete 5 :=
  getNextTask_vacuous_phase_complete.1 ([] : TaskDeps) emptyPhaseState (by decide)

/-! Cross-phase dependencies (claim C4). The handler checks dependencies against
the global `state.tasks` map, so a phase-2 task depending on an incomplete
phase-1 task is never selected; but the blocked report is only produced when
some task of the current phase is `in_progress` — otherwise the handler falls
through to its generic no-pending response. -/

/-- Dependency record of the cross-phase scenario: `phase2-task1` depends on
`phase1-task1`. -/
def crossPhaseDeps : TaskDeps := [("phase2-task1", ["phase1-task1"])]

/-- Cross-phase state with no in-progress task in the current phase:
`currentPhase = 2`, `phase1-task1` is `in_progress` (incomplete), `phase2-task1`
is `pending`. -/
def crossPhaseState : ProgressState :=
  { currentPhase := 2
    tasks := [("phase1-task1", { status := Status.in_progress }),
              ("phase2-task1", { status := Status.pending })]
    checkpoints := []
    lastUpdated := "t3" }

/-- Counterexample to C4: with `currentPhase = 2`, `phase2-task1` pending on the
incomplete `phase1-task1`, and no phase-2 task in progress, the query returns
the generic no-pending response — it does not report the task as blocked. -/
theorem getNextTask_cross_phase_counterexample :
    getNextTask crossPhaseDeps crossPhaseState = NextTaskResult.noPending
    ∧ ∀ ip bl, getNextTask crossPhaseDeps crossPhaseState ≠ NextTaskResult.blocked ip bl := by
  refine ⟨rfl, ?_⟩
  intro ip bl h
  simp [show getNextTask crossPhaseDeps crossPhaseState = NextTaskResult.noPending from rfl] at h

/-- C4 (amended): a pending current-phase task `t` with a dependency `dep` that
is not globally completed is never returned as the next task; when no
current-phase entry is eligible, the query reports blocked — listing `t` with
its unmet dependencies, `dep` among them — exactly if some current-phase task is
`in_progress`, and otherwise falls through to the generic no-pending response. -/
theorem getNextTask_cross_phase_amended
    (td : TaskDeps) (st : ProgressState) (t dep : String) (r : TaskRecord)
    (hmem : (t, r) ∈ currentPhaseTasks st)
    (hpend : r.status = Status.pending)
    (hdep : dep ∈ getDeps td t)
    (hinc : depCompleted st dep = false) :
    getNextTask td st ≠ NextTaskResult.nextTask t
    ∧ ((∀ p ∈ currentPhaseTasks st, eligibleB td st p = false) →
        (∃ q ∈ currentPhaseTasks st, q.2.status = Status.in_progress) →
        ∃ ip bl, getNextTask td st = NextTaskResult.blocked ip bl
          ∧ (t, unmetDependencies td st t) ∈ bl ∧ dep ∈ unmetDependencies td st t)
    ∧ ((∀ p ∈ currentPhaseTasks st, eligibleB td st p = false) →
        (∀ q ∈ currentPhaseTasks st, q.2.status ≠ Status.in_progress) →
        getNextTask td st = NextTaskResult.noPending) := by
  have hnotmet : areDependenciesMet td st t = false := by
    unfold areDependenciesMet
    exact List.all_eq_false.mpr ⟨dep, hdep, by simp [hinc]⟩
  refine ⟨?_, ?_, ?_⟩
  · intro heq
    cases hfind : (currentPhaseTasks st).find? (eligibleB td st) with
    | some p =>
      have hres : getNextTask td st = NextTaskResult.nextTask p.1 := by
        simp [getNextTask, hfind]
      rw [hres] at heq
      have hpt : p.1 = t := NextTaskResult.nextTask.inj heq
      have helig : eligibleB td st p = true := List.find?_some hfind
      unfold eligibleB at helig
      simp only [Bool.and_eq_true] at helig
      rw [hpt] at helig
      rw [helig.2] at hnotmet
      cases hnotmet
    | none =>
      have hne : getNextTask td st ≠ NextTaskResult.nextTask t := by
        simp only [getNextTask, hfind]
        split
        · simp
        · split <;> simp
      exact hne heq
  · intro hNoElig hInProg
    have hfind : (currentPhaseTasks st).find? (eligibleB td st) = none :=
      List.find?_eq_none.mpr (fun x hx => by simp [hNoElig x hx])
    have hnall : (currentPhaseTasks st).all (fun p => p.2.status == Status.completed) = false :=
      List.all_eq_false.mpr ⟨(t, r), hmem, by simp [hpend]⟩
    have hpmem : (t, r) ∈ (currentPhaseTasks st).filter (fun p => p.2.status == Status.pending) :=
      List.mem_filter.mpr ⟨hmem, by simp [hpend]⟩
    have hplen :
        0 < ((currentPhaseTasks st).filter (fun p => p.2.status == Status.pending)).length :=
      List.length_pos_of_mem hpmem
    obtain ⟨q, hq, hqs⟩ := hInProg
    have hqmem : q ∈ (currentPhaseTasks st).filter (fun p => p.2.status == Status.in_progress) :=
      List.mem_filter.mpr ⟨hq, by simp [hqs]⟩
    have hilen :
        0 < ((currentPhaseTasks st).filter (fun p => p.2.status == Status.in_progress)).length :=
      List.length_pos_of_mem hqmem
    have hres : getNextTask td st =
        NextTaskResult.blocked
          (((currentPhaseTasks st).filter (fun p => p.2.status == Status.in_progress)).map
            (fun p => p.1))
          ((((currentPhaseTasks st).filter (fun p => p.2.status == Status.pending)).filter
              (fun p => !(areDependenciesMet td st p.1))).map
            (fun p => (p.1, unmetDependencies td st p.1))) := by
      simp [getNextTask, hfind, hnall, hplen, hilen]
    refine ⟨_, _, hres, ?_, ?_⟩
    · exact List.mem_map.mpr
        ⟨(t, r), List.mem_filter.mpr ⟨hpmem, by simp [hnotmet]⟩, rfl⟩
    · exact List.mem_filter.mpr ⟨hdep, by simp [hinc]⟩
  · intro hNoElig hNoProg
    have hfind : (currentPhaseTasks st).find? (eligibleB td st) = none :=
      List.find?_eq_none.mpr (fun x hx => by simp [hNoElig x hx])
    have hnall : (currentPhaseTasks st).all (fun p => p.2.status == Status.completed) = false :=
      List.all_eq_false.mpr ⟨(t, r), hmem, by simp [hpend]⟩
    have hinil : (currentPhaseTasks st).filter (fun p => p.2.status == Status.in_progress) = [] :=
      List.filter_eq_nil_iff.mpr (fun q hq => by simp [hNoProg q hq])
    simp [getNextTask, hfind, hnall, hinil]

/-- Cross-phase witness state: like `crossPhaseState`, but with an additional
phase-2 task `in_progress`, so the blocked branch is reached. -/
def crossPhaseStateInProgress : ProgressState :=
  { currentPhase := 2
    tasks := [("phase1-task1", { status := Status.pending }),
              ("phase2-task1", { status := Status.pending }),
              ("phase2-task2", { status := Status.in_progress })]
    checkpoints := []
    lastUpdated := "t3" }

/-- Witness for the amended C4: with a phase-2 task in progress, the query
reports blocked and lists `phase2-task1` with its unmet cross-phase dependency
`phase1-task1`. -/
theorem getNextTask_cross_phase_amended_witness :
    ∃ ip bl, getNextTask crossPhaseDeps crossPhaseStateInProgress = NextTaskResult.blocked ip bl
      ∧ ("phase2-task1", unmetDependencies crossPhaseDeps crossPhaseStateInProgress "phase2-task1") ∈ bl
      ∧ "phase1-task1" ∈ unmetDependencies crossPhaseDeps crossPhaseStateInProgress "phase2-task1" :=
  (getNextTask_cross_phase_amended crossPhaseDeps crossPhaseStateInProgress
      "phase2-task1" "phase1-task1" { status := Status.pending }
      (by decide) rfl (by decide) (by decide)).2.1 (by decide) (by decide)

/-! Plan compiler: the conversion tail of `parsePRD` in `src/parsers/prd.ts`
(lines 143-193). The call to the external text-generation service and the
`JSON.parse` of its reply are outside the program logic; the embedding starts
from the decoded `ParseResponse` value and mirrors the conversion into a
`ParsedPRD`, which performs no validation of ids or dependencies. -/

/-- Target AI agent, from `UserConfig.defaultAgent` in `src/types.ts`. -/
inductive Agent where
  | claude_code
  | codex
  | both
deriving DecidableEq, Repr

/-- Task of a compiled plan, from `Task` in `src/types.ts`. -/
structure Task where
  id : String
  title : String
  description : String
  phase : Nat
  dependencies : List String
  status : Status
  parallelizable : Bool
  researchRequired : Option String := none
deriving DecidableEq, Repr

/-- Phase of a compiled plan, from `Phase` in `src/types.ts`. -/
structure Phase where
  number : Nat
  name : String
  description : String
  entryCriteria : List String
  exitCriteria : List String
  tasks : List Task
deriving DecidableEq, Repr

/-- Project metadata, from `ProjectInfo` in `src/types.ts`. -/
structure ProjectInfo where
  name : String
  description : String
  targetAgent : Agent
deriving DecidableEq, Repr

/-- The `overview` component of `ParsedPRD` in `src/types.ts`. -/
structure Overview where
  summary : String
  goals : List String
deriving DecidableEq, Repr

/-- Tech stack info, from `TechStackInfo` in `src/types.ts`; the union string
types are modelled as strings. -/
structure TechStackInfo where
  language : String
  packageManager : Option String := none
  framework : Option String := none
  hasDocker : Option Bool := none
  devCommand : Option String := none
  buildCommand : Option String := none
  testCommand : Option String := none
deriving DecidableEq, Repr

/-- The compiled plan model, from `ParsedPRD` in `src/types.ts`. -/
structure ParsedPRD where
  projectInfo : ProjectInfo
  overview : Overview
  phases : List Phase
  totalTasks : Nat
  techStack : Option TechStackInfo := none
deriving DecidableEq, Repr

/-- Raw task shape of the decoded generator response, from `ParseResponse` in
`src/parsers/prd.ts`. -/
structure RawTask where
  id : String
  title : String
  description : String
  dependencies : List String
  parallelizable : Bool
deriving DecidableEq, Repr

/-- Raw phase shape of the decoded generator response. -/
structure RawPhase where
  number : Nat
  name : String
  description : String
  entryCriteria : List String
  exitCriteria : List String
  tasks : List RawTask
deriving DecidableEq, Repr

/-- Raw tech-stack shape of the decoded generator response. -/
structure RawTechStack where
  language : String
  packageManager : Option String := none
  framework : Option String := none
  hasDocker : Option Bool := none
  devCommand : Option String := none
  buildCommand : Option String := none
  testCommand : Option String := none
deriving DecidableEq, Repr

/-- The decoded generator response, from `ParseResponse` in `src/parsers/prd.ts`. -/
structure ParseResponse where
  projectName : String
  description : String
  summary : String
  goals : List String
  techStack : Option RawTechStack := none
  phases : List RawPhase
deriving DecidableEq, Repr

/-- JavaScript `x || undefined` on an optional string: the empty string is
falsy and is turned into `undefined`. -/
def strOrUndef (s : Option String) : Option String :=
  match s with
  | some v => if v = "" then none else some v
  | none => none

/-- JavaScript `projectName || parsed.projectName` (`src/parsers/prd.ts`
line 181): an absent or empty explicit name falls back to the parsed one. -/
def nameOrDefault (projectName : Option String) (fallback : String) : String :=
  match projectName with
  | some n => if n = "" then fallback else n
  | none => fallback

/-- The conversion tail of `parsePRD` (`src/parsers/prd.ts` lines 146-192):
map every raw phase and task into the plan model, stamping each task with its
phase number and status `pending`; sum the per-phase task counts into
`totalTasks`; carry the tech stack through. No id, uniqueness, phase-number,
dependency-resolvability or acyclicity check is performed anywhere. -/
def parsePRDConvert (defaultAgent : Agent) (projectName : Option String)
    (parsed : ParseResponse) : ParsedPRD :=
  let phases : List Phase := parsed.phases.map (fun p =>
    { number := p.number
      name := p.name
      description := p.description
      entryCriteria := p.entryCriteria
      exitCriteria := p.exitCriteria
      tasks := p.tasks.map (fun t =>
        { id := t.id
          title := t.title
          description := t.description
          phase := p.number
          dependencies := t.dependencies
          status := Status.pending
          parallelizable := t.parallelizable }) })
  let totalTasks := phases.foldl (fun sum p => sum + p.tasks.length) 0
  let techStack : Option TechStackInfo :=
    match parsed.techStack with
    | some ts => some
        { language := ts.language
          packageManager := ts.packageManager
          framework := strOrUndef ts.framework
          hasDocker := ts.hasDocker
          devCommand := strOrUndef ts.devCommand
          buildCommand := strOrUndef ts.buildCommand
          testCommand := strOrUndef ts.testCommand }
    | none => none
  { projectInfo :=
      { name := nameOrDefault projectName parsed.projectName
        description := parsed.description
        targetAgent := defaultAgent }
    overview := { summary := parsed.summary, goals := parsed.goals }
    phases := phases
    totalTasks := totalTasks
    techStack := techStack }

/-- All task ids of a compiled plan, in declaration order. -/
def planTaskIds (prd : ParsedPRD) : List String :=
  prd.phases.flatMap (fun p => p.tasks.map (fun t => t.id))

/-- All task ids of a raw generator response, in declaration order. -/
def rawTaskIds (parsed : ParseResponse) : List String :=
  parsed.phases.flatMap (fun p => p.tasks.map (fun t => t.id))

/-- The id-and-dependency graph of a compiled plan, phase by phase. -/
def planDepGraph (prd : ParsedPRD) : List (List (String × List String)) :=
  prd.phases.map (fun p => p.tasks.map (fun t => (t.id, t.dependencies)))

/-- The id-and-dependency graph of a raw generator response, phase by phase. -/
def rawDepGraph (parsed : ParseResponse) : List (List (String × List String)) :=
  parsed.phases.map (fun p => p.tasks.map (fun t => (t.id, t.dependencies)))

/-- Raw plan with a two-task dependency cycle: `phase1-task1` depends on
`phase1-task2` and `phase1-task2` depends on `phase1-task1`. -/
def cyclicResponse : ParseResponse :=
  { projectName := "Cyclic"
    description := "d"
    summary := "s"
    goals := []
    phases := [{ number := 1
                 name := "Phase 1"
                 description := "p"
                 entryCriteria := []
                 exitCriteria := []
                 tasks := [{ id := "phase1-task1"
                             title := "A"
                             description := "a"
                             dependencies := ["phase1-task2"]
                             parallelizable := false },
                           { id := "phase1-task2"
                             title := "B"
                             description := "b"
                             dependencies := ["phase1-task1"]
                             parallelizable := false }] }] }

/-- Counterexample to C2: compiling the cyclic raw plan yields a Plan Model
(with its two tasks counted and the mutual cycle carried verbatim), not a
CompileError — no cycle detection exists in `parsePRD`. -/
theorem parsePRD_cycle_counterexample :
    planDepGraph (parsePRDConvert Agent.claude_code none cyclicResponse)
      = [[("phase1-task1", ["phase1-task2"]), ("phase1-task2", ["phase1-task1"])]]
    ∧ (parsePRDConvert Agent.claude_code none cyclicResponse).totalTasks = 2 :=
  ⟨rfl, rfl⟩

/-- C2 (amended): `parsePRD` performs no dependency validation at all — for
every raw plan input, cyclic or not, conversion succeeds and carries every
task's dependency list into the Plan Model verbatim; no CompileError path
exists. -/
theorem parsePRD_no_dependency_validation
    (agent : Agent) (projectName : Option String) (raw : ParseResponse) :
    planDepGraph (parsePRDConvert agent projectName raw) = rawDepGraph raw := by
  simp [planDepGraph, rawDepGraph, parsePRDConvert, List.map_map, Function.comp_def]

/-- Raw plan in which two distinct tasks share the id `phase1-task1`. -/
def duplicateIdResponse : ParseResponse :=
  { projectName := "Duplicate"
    description := "d"
    summary := "s"
    goals := []
    phases := [{ number := 1
                 name := "Phase 1"
                 description := "p"
                 entryCriteria := []
                 exitCriteria := []
                 tasks := [{ id := "phase1-task1"
                             title := "First"
                             description := "a"
                             dependencies := []
                             parallelizable := false },
                           { id := "phase1-task1"
                             title := "Second"
                             description := "b"
                             dependencies := []
                             parallelizable := false }] }] }

/-- Counterexample to C3: compiling a raw plan with two tasks sharing id
`phase1-task1` yields a Plan Model keeping both occurrences (no duplicate-id
CompileError, and no de-duplication either — but the claim requires failure). -/
theorem parsePRD_duplicate_id_counterexample :
    planTaskIds (parsePRDConvert Agent.claude_code none duplicateIdResponse)
      = ["phase1-task1", "phase1-task1"]
    ∧ (parsePRDConvert Agent.claude_code none duplicateIdResponse).totalTasks = 2 :=
  ⟨rfl, rfl⟩

theorem foldl_add_tasks_length (l : List Phase) (n : Nat) :
    l.foldl (fun sum p => sum + p.tasks.length) n = n + (l.map (fun p => p.tasks.length)).sum := by
  induction l generalizing n with
  | nil => simp
  | cons p l ih => simp [List.foldl_cons, ih, Nat.add_assoc]

/-- C3 (amended): `parsePRD` neither rejects nor de-duplicates repeated task
ids — for every raw plan input, the task-id sequence of the Plan Model equals
the raw input's task-id sequence, duplicates included, and `totalTasks` counts
every occurrence. -/
theorem parsePRD_no_duplicate_id_validation
    (agent : Agent) (projectName : Option String) (raw : ParseResponse) :
    planTaskIds (parsePRDConvert agent projectName raw) = rawTaskIds raw
    ∧ (parsePRDConvert agent projectName raw).totalTasks = (rawTaskIds raw).length := by
  constructor
  · simp [planTaskIds, rawTaskIds, parsePRDConvert, List.flatMap_map, List.map_map,
      Function.comp_def]
  · simp [parsePRDConvert, rawTaskIds, foldl_add_tasks_length, List.length_flatMap,
      List.map_map, Function.comp_def]

/-! Re-parse reconciliation (claim C5): `handleReparse` in
`src/cli/commands/update.ts` (lines 86-136) re-parses the PRD, copies the status
of existing records onto the freshly parsed tasks, and then rewrites all files
through `writePRDFiles`, which persists `generateInitialState(parsedPRD)` as the
new `state.json` (`src/generators/writer.ts`, line 43 of the writer source). -/

/-- The status-preservation loop of `handleReparse` (`src/cli/commands/update.ts`
lines 117-126): for every task of the re-parsed plan whose id has a record in
the existing state, overwrite the task's `status` field with the recorded one.
The `Task` shape carries no `completedAt` or `notes`, so nothing else can be
copied here. -/
def preserveStatuses (oldTasks : List (String × TaskRecord)) (phases : List Phase) :
    List Phase :=
  phases.map (fun p =>
    { p with tasks := p.tasks.map (fun t =>
        match jsLookup oldTasks t.id with
        | some r => { t with status := r.status }
        | none => t) })

/-- Modelled from the spec: `generateInitialState` lives in
`src/generators/markdown.ts`, a file absent from the provided sources; only its
caller `writePRDFiles` is present. Following section 4.3 of the spec
(`initialize(plan)` creates one Progress Record per task id of the plan, with
`currentPhase = 1` and empty checkpoints) and the preservation comment in
`handleReparse` (which patches task statuses before this function runs, so the
records must take each task's own `status` field — all `pending` on a freshly
parsed plan), the model creates one record per task, in plan order, carrying
the task's status and no `completedAt` or `notes`. -/
def generateInitialState (prd : ParsedPRD) (now : String) : ProgressState :=
  { currentPhase := 1
    tasks := (prd.phases.flatMap (fun p => p.tasks)).map
      (fun t => (t.id, { status := t.status }))
    checkpoints := []
    lastUpdated := now }

/-- The effect of `handleReparse` (`src/cli/commands/update.ts` lines 113-135)
on the persisted state file: patch old statuses into the re-parsed plan, then
persist a freshly generated initial state of that plan. -/
def handleReparseState (existingState : Option ProgressState) (parsedPRD : ParsedPRD)
    (now : String) : ProgressState :=
  match existingState with
  | some st =>
      generateInitialState
        { parsedPRD with phases := preserveStatuses st.tasks parsedPRD.phases } now
  | none => generateInitialState parsedPRD now

/-- Record produced for a task by the re-parse: the old status when the id was
already tracked, the task's own status otherwise; never any `completedAt` or
`notes`. -/
def reparseRecord (oldTasks : List (String × TaskRecord)) (t : Task) : TaskRecord :=
  { status :=
      match jsLookup oldTasks t.id with
      | some r => r.status
      | none => t.status }

theorem flatMap_preserveStatuses (oldTasks : List (String × TaskRecord))
    (phases : List Phase) :
    (preserveStatuses oldTasks phases).flatMap (fun p => p.tasks)
      = (phases.flatMap (fun p => p.tasks)).map (fun t =>
          match jsLookup oldTasks t.id with
          | some r => { t with status := r.status }
          | none => t) := by
  simp [preserveStatuses, List.flatMap_map, List.map_flatMap]

theorem jsLookup_map_pair (g : Task → TaskRecord) (l : List Task) (id : String) :
    jsLookup (l.map (fun t => (t.id, g t))) id
      = (l.find? (fun t => t.id == id)).map g := by
  induction l with
  | nil => rfl
  | cons t l ih =>
    simp only [List.map_cons, jsLookup, List.find?_cons]
    cases h : (t.id == id) with
    | true => simp [h]
    | false =>
      simp only [h]
      exact ih

theorem handleReparse_tasks_eq (old : ProgressState) (prd : ParsedPRD) (now : String) :
    (handleReparseState (some old) prd now).tasks
      = (prd.phases.flatMap (fun p => p.tasks)).map
          (fun t => (t.id, reparseRecord old.tasks t)) := by
  show (generateInitialState _ _).tasks = _
  simp only [generateInitialState, flatMap_preserveStatuses, List.map_map]
  apply List.map_congr_left
  intro t _
  cases h : jsLookup old.tasks t.id <;> simp [reparseRecord, h, Function.comp_def]

/-- Old progress state for the re-parse scenario: `phase1-task1` completed with
a timestamp and notes, `currentPhase = 2`, one checkpoint recorded. -/
def oldReparseState : ProgressState :=
  { currentPhase := 2
    tasks := [("phase1-task1",
                { status := Status.completed
                  completedAt := some "2024-01-01"
                  notes := some "done" }),
              ("phase1-task2", { status := Status.pending })]
    checkpoints := [{ phase := 1
                      task := "phase1-task1"
                      summary := "first checkpoint"
                      createdAt := "2024-01-01" }]
    lastUpdated := "2024-01-02" }

/-- Freshly re-parsed plan still containing `phase1-task1`, dropping
`phase1-task2`, and adding `phase1-task9`; all statuses `pending`. -/
def reparsedPlan : ParsedPRD :=
  { projectInfo := { name := "P", description := "d", targetAgent := Agent.claude_code }
    overview := { summary := "s", goals := [] }
    phases := [{ number := 1
                 name := "Phase 1"
                 description := "p"
                 entryCriteria := []
                 exitCriteria := []
                 tasks := [{ id := "phase1-task1"
                             title := "T1"
                             description := ""
                             phase := 1
                             dependencies := []
                             status := Status.pending
                             parallelizable := false },
                           { id := "phase1-task9"
                             title := "T9"
                             description := ""
                             phase := 1
                             dependencies := []
                             status := Status.pending
                             parallelizable := false }] }]
    totalTasks := 2 }

/-- Counterexample to C5: re-parsing against `oldReparseState` keeps the
`completed` status of `phase1-task1` but drops its `completedAt` and `notes`,
resets `currentPhase` from 2 back to 1, and empties the checkpoint sequence —
the claim's preservation of `completedAt`/`notes` and carry-forward of
`currentPhase`/`checkpoints` both fail. -/
theorem handleReparse_counterexample :
    jsLookup (handleReparseState (some oldReparseState) reparsedPlan "2024-01-03").tasks
        "phase1-task1" = some { status := Status.completed }
    ∧ jsLookup (handleReparseState (some oldReparseState) reparsedPlan "2024-01-03").tasks
        "phase1-task1"
        ≠ some { status := Status.completed
                 completedAt := some "2024-01-01"
                 notes := some "done" }
    ∧ (handleReparseState (some oldReparseState) reparsedPlan "2024-01-03").currentPhase = 1
    ∧ oldReparseState.currentPhase = 2
    ∧ (handleReparseState (some oldReparseState) reparsedPlan "2024-01-03").checkpoints = []
    ∧ oldReparseState.checkpoints ≠ [] := by
  refine ⟨rfl, by decide, rfl, rfl, rfl, by decide⟩

/-- C5 (amended): for a freshly parsed plan (all task statuses `pending`),
re-parse reconciliation preserves only the `status` of records whose ids
survive into the new plan — their `completedAt` and `notes` are dropped; ids
absent from the new plan are removed; new ids receive fresh `pending` records;
and rather than carrying forward, `currentPhase` resets to 1 and the checkpoint
sequence resets to empty. -/
theorem handleReparse_amended (old : ProgressState) (prd : ParsedPRD) (now : String)
    (hfresh : ∀ p ∈ prd.phases, ∀ t ∈ p.tasks, t.status = Status.pending) :
    (∀ id r, jsLookup old.tasks id = some r → id ∈ planTaskIds prd →
        jsLookup (handleReparseState (some old) prd now).tasks id
          = some { status := r.status })
    ∧ (∀ id, id ∉ planTaskIds prd →
        jsLookup (handleReparseState (some old) prd now).tasks id = none)
    ∧ (∀ id, id ∈ planTaskIds prd → jsLookup old.tasks id = none →
        jsLookup (handleReparseState (some old) prd now).tasks id
          = some { status := Status.pending })
    ∧ (handleReparseState (some old) prd now).currentPhase = 1
    ∧ (handleReparseState (some old) prd now).checkpoints = [] := by
  have hids : planTaskIds prd = (prd.phases.flatMap (fun p => p.tasks)).map (fun t => t.id) := by
    simp [planTaskIds, List.map_flatMap]
  have hlook : ∀ id, jsLookup (handleReparseState (some old) prd now).tasks id
      = ((prd.phases.flatMap (fun p => p.tasks)).find? (fun t => t.id == id)).map
          (reparseRecord old.tasks) := by
    intro id
    rw [handleReparse_tasks_eq, jsLookup_map_pair]
  refine ⟨?_, ?_, ?_, rfl, rfl⟩
  · intro id r hr hid
    rw [hids] at hid
    obtain ⟨t, ht, hteq⟩ := List.mem_map.mp hid
    have hsome : ((prd.phases.flatMap (fun p => p.tasks)).find?
        (fun t => t.id == id)).isSome = true :=
      List.find?_isSome.mpr ⟨t, ht, by simp [hteq]⟩
    obtain ⟨t₀, ht₀⟩ := Option.isSome_iff_exists.mp hsome
    have ht₀id : t₀.id = id := by
      have h2 := List.find?_some ht₀
      simpa using h2
    rw [hlook, ht₀]
    simp [reparseRecord, ht₀id, hr]
  · intro id hid
    rw [hids] at hid
    have hnone : (prd.phases.flatMap (fun p => p.tasks)).find? (fun t => t.id == id) = none :=
      List.find?_eq_none.mpr (fun t ht hbeq => by
        exact hid (List.mem_map.mpr ⟨t, ht, by simpa using hbeq⟩))
    rw [hlook, hnone]
    rfl
  · intro id hid hnone
    rw [hids] at hid
    obtain ⟨t, ht, hteq⟩ := List.mem_map.mp hid
    have hsome : ((prd.phases.flatMap (fun p => p.tasks)).find?
        (fun t => t.id == id)).isSome = true :=
      List.find?_isSome.mpr ⟨t, ht, by simp [hteq]⟩
    obtain ⟨t₀, ht₀⟩ := Option.isSome_iff_exists.mp hsome
    have ht₀id : t₀.id = id := by
      have h2 := List.find?_some ht₀
      simpa using h2
    have ht₀mem : t₀ ∈ prd.phases.flatMap (fun p => p.tasks) := List.mem_of_find?_eq_some ht₀
    obtain ⟨p, hp, htp⟩ := List.mem_flatMap.mp ht₀mem
    rw [hlook, ht₀]
    simp [reparseRecord, ht₀id, hnone, hfresh p hp t₀ htp]

/-- Witness for the amended C5: in the concrete re-parse scenario the completed
status of `phase1-task1` survives as a bare `completed` record. -/
theorem handleReparse_amended_witness :
    jsLookup (handleReparseState (some oldReparseState) reparsedPlan "2024-01-03").tasks
        "phase1-task1" = some { status := Status.completed } :=
  (handleReparse_amended oldReparseState reparsedPlan "2024-01-03" (by decide)).1
    "phase1-task1"
    { status := Status.completed, completedAt := some "2024-01-01", notes := some "done" }
    rfl (by decide)

/-! Persistence helpers (claims C7 and C9): `writeJson` and `readJson` in
`src/utils/files.ts`. The files on disk are modelled as an association list
from path to textual content. -/

/-- A file-system fragment: path to current textual content. -/
def FileStore : Type := List (String × String)

/-- Content at a path, or `none` when the path does not exist (`fs.pathExists`
false). A later entry shadows earlier ones. -/
def lookupFile (fs : FileStore) (p : String) : Option String :=
  (List.find? (fun e => e.1 == p) fs).map (fun e => e.2)

/-- Overwrite of one path with new content. -/
def setFile (fs : FileStore) (p c : String) : FileStore :=
  (p, c) :: fs

/-- Prefix of the first `k` characters of a string. -/
def strTake (s : String) (k : Nat) : String :=
  { data := s.data.take k }

/-- The `writeJson` helper (`src/utils/files.ts` lines 24-27): after
`fs.ensureDir` (directories are not modelled), `fs.writeJson(filePath, data)`
serializes the data and writes it directly to the target path. There is no
temporary file and no atomic rename anywhere in the helper. -/
def writeJson (fs : FileStore) (filePath serialized : String) : FileStore :=
  setFile fs filePath serialized

/-- A `writeJson` interrupted after `k` characters: because the write goes
directly to the target path, a crash mid-write leaves the target itself
holding a prefix of the new content. -/
def writeJsonTorn (fs : FileStore) (filePath serialized : String) (k : Nat) : FileStore :=
  setFile fs filePath (strTake serialized k)

/-- The `readJson` helper (`src/utils/files.ts` lines 29-38): when the path
exists, parse its content and return the value; any failure — including a
parse error on a present but corrupt file — is swallowed by the empty `catch`
and the function returns `null`. The JSON parser inside `fs.readJson` is
abstracted as a function returning `none` exactly when parsing would throw. -/
def readJson {α : Type} (parse : String → Option α) (fs : FileStore) (filePath : String) :
    Option α :=
  match lookupFile fs filePath with
  | some content => parse content
  | none => none

/-- Path of the persisted progress state (`getPaths(...).state` in
`src/utils/files.ts` line 63). -/
def stateFilePath : String := "docs/progress/state.json"

/-- Serialized form of the previously persisted state in the torn-write
scenario. -/
def priorStateContent : String := "state-v1-contents"

/-- Serialized form of the state being written when the crash hits. -/
def newStateContent : String := "state-v2-contents-longer"

/-- Store holding the previously persisted state file. -/
def priorStore : FileStore := [(stateFilePath, priorStateContent)]

/-- Stand-in for the JSON parser of the store: it recognizes exactly the two
serialized states of the scenario. -/
def parseScenario : String → Option Nat := fun s =>
  if s = priorStateContent then some 1
  else if s = newStateContent then some 2
  else none

/-- Counterexample to C7: a `writeJson` of the new state that fails after 8
characters leaves the state path holding a partial prefix — a subsequent load
parses neither the previous nor the new state and returns `null`, so the
previously persisted state is not left intact. -/
theorem writeJson_torn_counterexample :
    readJson parseScenario priorStore stateFilePath = some 1
    ∧ lookupFile (writeJsonTorn priorStore stateFilePath newStateContent 8) stateFilePath
        = some (strTake newStateContent 8)
    ∧ strTake newStateContent 8 ≠ priorStateContent
    ∧ strTake newStateContent 8 ≠ newStateContent
    ∧ readJson parseScenario (writeJsonTorn priorStore stateFilePath newStateContent 8)
        stateFilePath = none := by
  refine ⟨rfl, rfl, by decide, by decide, by decide⟩

/-- C7 (amended): `writeJson` writes the serialized state directly to the
target path, with no temporary location and no atomic replacement — a
completed write lands at the target, an interrupted write leaves the target
itself holding a prefix of the new content (so a subsequent load does not see
the previous state), and no other path is touched by the write. -/
theorem writeJson_direct_write (fs : FileStore) (p c : String) (k : Nat) :
    lookupFile (writeJson fs p c) p = some c
    ∧ lookupFile (writeJsonTorn fs p c k) p = some (strTake c k)
    ∧ (∀ q, q ≠ p → lookupFile (writeJsonTorn fs p c k) q = lookupFile fs q) := by
  refine ⟨?_, ?_, ?_⟩
  · simp [writeJson, setFile, lookupFile, List.find?_cons]
  · simp [writeJsonTorn, setFile, lookupFile, List.find?_cons]
  · intro q hq
    have hne : (p == q) = false := by
      simp [Ne.symm hq]
    simp [writeJsonTorn, setFile, lookupFile, List.find?_cons, hne]

/-- Witness for the amended C7: in the torn-write scenario another progress
file is untouched by the interrupted write of the state file. -/
theorem writeJson_direct_write_witness :
    lookupFile (writeJsonTorn priorStore stateFilePath newStateContent 8)
        "docs/progress/tasks.json"
      = lookupFile priorStore "docs/progress/tasks.json" :=
  (writeJson_direct_write priorStore stateFilePath newStateContent 8).2.2
    "docs/progress/tasks.json" (by decide)

/-- A present state file whose content no parser of the scenario accepts. -/
def corruptStore : FileStore := [(stateFilePath, "state-v1-conten")]

/-- Counterexample to C9: `readJson` returns `null` not only when the state
file is absent but also when it is present and unparseable — the corrupt file
is reported exactly like an absent one, not surfaced as an error (the helper
has no error outcome at all). -/
theorem readJson_corrupt_counterexample :
    readJson parseScenario ([] : FileStore) stateFilePath = none
    ∧ lookupFile corruptStore stateFilePath = some "state-v1-conten"
    ∧ parseScenario "state-v1-conten" = none
    ∧ readJson parseScenario corruptStore stateFilePath = none := by
  refine ⟨rfl, rfl, by decide, by decide⟩

/-- C9 (amended): `readJson` returns `null` exactly when the file is absent or
present but unparseable; its only outcomes are a parsed value and `null`, so a
corrupt state file is indistinguishable from an absent one at the interface
and no error is surfaced to the caller. -/
theorem readJson_null_iff_absent_or_corrupt {α : Type} (parse : String → Option α)
    (fs : FileStore) (p : String) :
    readJson parse fs p = none ↔
      lookupFile fs p = none ∨ ∃ c, lookupFile fs p = some c ∧ parse c = none := by
  unfold readJson
  cases h : lookupFile fs p <;> simp [h]

end VibeAssistant
